import Mathlib

/-!
Verification of the pyALGENCAN solver adapter (pyOpt/pyALGENCAN/pyALGENCAN.py).

The Python source is shallowly embedded below: numeric values are rationals,
Python exceptions are an explicit error type threaded through `Except`, the
history log is a pair of cursored record lists, and the promotion of a
temporary history log at finalize time is a sequence of explicit file-system
operations.  Python locals that may be unbound on some control path (the
`ff`, `gg`, `fail` locals of the evaluation callbacks) are modelled as
`Option` values; reading an unbound local yields a `NameError`, mirroring
the `UnboundLocalError` Python raises at that point.
-/

namespace PyALGENCAN

/-- Componentwise decidable equality for `Except` results (used to evaluate
the embedded callbacks at concrete inputs). -/
def exceptDecEq {ε α : Type} [DecidableEq ε] [DecidableEq α] :
    DecidableEq (Except ε α)
  | .ok x, .ok y =>
    if h : x = y then isTrue (congrArg Except.ok h)
    else isFalse (fun hc => h (Except.ok.inj hc))
  | .error x, .error y =>
    if h : x = y then isTrue (congrArg Except.error h)
    else isFalse (fun hc => h (Except.error.inj hc))
  | .ok _, .error _ => isFalse (fun hc => Except.noConfusion hc)
  | .error _, .ok _ => isFalse (fun hc => Except.noConfusion hc)

instance {ε α : Type} [DecidableEq ε] [DecidableEq α] : DecidableEq (Except ε α) :=
  exceptDecEq

/-- Python exception kinds raised (or, per the spec, expected) by the adapter. -/
inductive PyErr where
  | ioError (msg : String)
  | valueError (msg : String)
  | nameError (n : String)
  | configurationError (msg : String)
deriving DecidableEq, Repr

/-- A Python numeric value as seen by the adapter: a real (float) or a
complex number.  Rationals stand in for IEEE floats; none of the verified
properties depend on rounding. -/
inductive PyNum where
  | real (v : Rat)
  | cplx (re im : Rat)
deriving DecidableEq, Repr

/-- `isinstance(v, complex)` of the source. -/
def PyNum.isComplexInstance : PyNum → Bool
  | .real _ => false
  | .cplx _ _ => true

/-- `v.astype(float)` on a numpy scalar: keeps the real part. -/
def PyNum.astypeFloat : PyNum → PyNum
  | .real v => .real v
  | .cplx re _ => .real re

/-- Lines 435-438 / 442-445: `if isinstance(v, complex): v.astype(float) else v`. -/
def coerceReal (v : PyNum) : PyNum :=
  if v.isComplexInstance then v.astypeFloat else v

/-- The optimizer state built by `ALGENCAN.__init__` (the only field the
constructor derives from its argument is the parallel-objective flag). -/
structure ALGENCANState where
  poa : Bool
deriving DecidableEq, Repr

/-- Python `str.upper` on the ASCII strings involved, as a character map. -/
def strUpper (s : String) : String :=
  ⟨s.data.map Char.toUpper⟩

/-- Lines 69-74 of `ALGENCAN.__init__`: `pll_type` is `None` (no parallelism)
or a string whose upper-casing is `"POA"`; anything else raises `ValueError`. -/
def ALGENCAN_init (pll_type : Option String) : Except PyErr ALGENCANState :=
  match pll_type with
  | none => .ok ⟨false⟩
  | some s =>
    if strUpper s = "POA" then .ok ⟨true⟩
    else .error (.valueError "pll_type must be either None or POA")

/-- pyOpt variable kind codes (the `type` attribute of a Variable):
continuous, integer, discrete. -/
inductive VarKind where
  | c
  | i
  | d
deriving DecidableEq, Repr

/-- A design variable of the problem model. -/
structure PVariable where
  name : String
  kind : VarKind
  lower : Rat
  upper : Rat
  value : Rat
deriving DecidableEq, Repr

/-- pyOpt constraint kind codes: equality, inequality. -/
inductive ConKind where
  | e
  | i
deriving DecidableEq, Repr

/-- A constraint of the problem model. -/
structure PConstraint where
  name : String
  kind : ConKind
deriving DecidableEq, Repr

/-- A named variable group (only the length of its `ids` list matters to the
adapter). -/
structure VarGroup where
  name : String
  ids : List Nat
deriving DecidableEq, Repr

/-- Lines 522-534 of `__solve__` (variables handling): walk the variables in
registration order, collecting lower/upper/value for continuous ones, and
raise `IOError` at the first integer or discrete variable (the message text
is the literal one from the source, including its NLPQL copy-paste). -/
def variablesHandling : List PVariable → Except PyErr (List Rat × List Rat × List Rat)
  | [] => .ok ([], [], [])
  | v :: rest =>
    match v.kind with
    | .c =>
      match variablesHandling rest with
      | .ok (xl, xu, xx) => .ok (v.lower :: xl, v.upper :: xu, v.value :: xx)
      | .error e => .error e
    | .i => .error (.ioError "NLPQL cannot handle integer design variables")
    | .d => .error (.ioError "NLPQL cannot handle discrete design variables")

/-- Lines 550-564 of `__solve__` (constraints handling): build the `equatn`
and `linear` arrays, or raise `IOError` when the problem has no constraints. -/
def constraintsHandling (cons : List PConstraint) : Except PyErr (List Bool × List Bool) :=
  if 0 < cons.length then
    .ok (cons.map (fun c => match c.kind with | .e => true | .i => false),
         cons.map (fun _ => false))
  else
    .error (.ioError "ALGENCAN support for unconstrained problems not implemented yet")

/-- Lines 540-548 of `__solve__` (variables groups handling): a running
counter `k` assigns each group the contiguous index range
`[k, k + len(ids))` in group order. -/
def computeGroupIds (groups : List VarGroup) : List (String × Nat × Nat) :=
  (groups.foldl
    (fun (acc : List (String × Nat × Nat) × Nat) g =>
      (acc.1 ++ [(g.name, acc.2, acc.2 + g.ids.length)], acc.2 + g.ids.length))
    ([], 0)).1

/-- Recursive characterization of the group-ids table starting at offset `k`
(used to reason about `computeGroupIds`). -/
def buildGids (gs : List VarGroup) (k : Nat) : List (String × Nat × Nat) :=
  match gs with
  | [] => []
  | g :: rest => (g.name, k, k + g.ids.length) :: buildGids rest (k + g.ids.length)

/-- Start offset of the `j`-th group: sum of the lengths of the groups
before it. -/
def groupOffset (groups : List VarGroup) (j : Nat) : Nat :=
  (((groups.take j).map (fun g => g.ids.length)).sum)

/-- The value a group sees: a scalar (group of one index) or a sub-vector. -/
inductive GroupVal where
  | scalar (v : Rat)
  | vec (vs : List Rat)
deriving DecidableEq, Repr

/-- Python slice `x[a:b]` on a list. -/
def pySlice (x : List Rat) (a b : Nat) : List Rat := (x.drop a).take (b - a)

/-- The design vector as the user objective receives it: flat array or
group-name-keyed mapping (modelled as an ordered list of pairs). -/
inductive XView where
  | flat (x : List Rat)
  | grouped (xg : List (String × GroupVal))
deriving DecidableEq, Repr

/-- Lines 388-398 of `evalfc` (variables groups handling): with groups
enabled, each group with range `[s, e)` maps to the scalar `x[s]` when
`e - s == 1` and to the slice `x[s:e]` otherwise; with groups disabled the
flat vector is passed through unchanged. -/
def expandGroups (useGroups : Bool) (gids : List (String × Nat × Nat)) (x : List Rat) :
    XView :=
  if useGroups then
    .grouped (gids.map fun g =>
      (g.1, if g.2.2 - g.2.1 = 1 then GroupVal.scalar (x.getD g.2.1 0)
            else GroupVal.vec (pySlice x g.2.1 g.2.2)))
  else .flat x

/-- Entry list of a grouped view (empty for a flat view). -/
def groupedEntries : XView → List (String × GroupVal)
  | .flat _ => []
  | .grouped xg => xg

/-- The data `__solve__` has assembled once setup is past the point where
configuration errors can be raised. -/
structure SetupOut where
  xl : List Rat
  xu : List Rat
  xx : List Rat
  group_ids : List (String × Nat × Nat)
  equatn : List Bool
  linear : List Bool
deriving DecidableEq, Repr

/-- Lines 522-567 of `__solve__` in program order: variables handling, then
variable-groups handling, then constraints handling.  All of it runs before
the native solver is started (line 610), so an error raised here precedes
every evaluation of the user model. -/
def solveSetup (vars : List PVariable) (useGroups : Bool) (groups : List VarGroup)
    (cons : List PConstraint) : Except PyErr SetupOut :=
  match variablesHandling vars with
  | .error e => .error e
  | .ok (xl, xu, xx) =>
    let gids := if useGroups then computeGroupIds groups else []
    match constraintsHandling cons with
    | .error e => .error e
    | .ok (equatn, linear) => .ok ⟨xl, xu, xx, gids, equatn, linear⟩

/-- Whether `sub` occurs inside `s` (used to state whether an error message
identifies an entity by name). -/
def containsSub (s sub : String) : Bool :=
  decide (List.IsInfix sub.data s.data)

/-- One objective/constraint record of the history log: the `obj`, `con`
and `fail` fields that `evalfc` reads together (line 407). -/
structure HistRecord where
  obj : PyNum
  con : List PyNum
  fail : Int
deriving DecidableEq, Repr

/-- One gradient record of the history log: the `grad_obj` and `grad_con`
fields that `evalgjac` reads together (line 473), stored flattened exactly
as written. -/
structure GradRecord where
  grad_obj : List Rat
  grad_con : List Rat
deriving DecidableEq, Repr

/-- The per-solve state the evaluation callbacks share: process rank, the
hot-start flag `self.h_start`, the recording flag `self.sto_hst`, and the
two sequential read cursors of the hot-start log. -/
structure SolveState where
  myrank : Nat
  h_start : Bool
  sto_hst : Bool
  fcLog : List HistRecord
  fcPos : Nat
  gradLog : List GradRecord
  gradPos : Nat
deriving DecidableEq, Repr

/-- One write to the history log, tagged with its field identifier. -/
inductive HistWrite where
  | wx (x : List Rat)
  | wobj (v : PyNum)
  | wcon (v : List PyNum)
  | wfail (v : Int)
  | wgrad_obj (v : List (List Rat))
  | wgrad_con (v : List (List Rat))
deriving DecidableEq, Repr

/-- Lines 427-432 of `evalfc`: the four history writes in program order.
An unassigned local aborts the sequence with `NameError` at its own write,
after the earlier writes have already happened. -/
def writeSeq (x : List Rat) (ffO : Option PyNum) (ggO : Option (List PyNum))
    (failO : Option Int) : List HistWrite × Option PyErr :=
  match ffO with
  | none => ([.wx x], some (.nameError "ff"))
  | some ff =>
    match ggO with
    | none => ([.wx x, .wobj ff], some (.nameError "gg"))
    | some gg =>
      match failO with
      | none => ([.wx x, .wobj ff, .wcon gg], some (.nameError "fail"))
      | some fl => ([.wx x, .wobj ff, .wcon gg, .wfail fl], none)

/-- Lines 405-416 of `evalfc`: the rank-0 hot-start read.  With an unread
record it binds `ff` and `gg` (and the logged failure flag goes to the
dead local `flag`, not to `fail`); with the log exhausted it turns the
hot-start flag off. -/
def evalfcHotRead (st : SolveState) :
    Option PyNum × Option (List PyNum) × SolveState :=
  if st.myrank = 0 then
    if st.h_start then
      if st.fcPos < st.fcLog.length then
        let r := st.fcLog.getD st.fcPos ⟨.real 0, [], 0⟩
        (some r.obj, some r.con, { st with fcPos := st.fcPos + 1 })
      else
        (none, none, { st with h_start := false })
    else (none, none, st)
  else (none, none, st)

/-- The values `evalfc` hands back to the native solver. -/
structure FcOut where
  f : PyNum
  g : List PyNum
  fail : Int
deriving DecidableEq, Repr

/-- Lines 372-447 (`evalfc`), serial instance (`pll = False`; `myrank` kept
general because the guards read it).  The Python locals `ff`, `gg`, `fail`
that some control path leaves unassigned are `Option`s; reading an
unassigned one raises `NameError`, as Python raises `UnboundLocalError`
there.  The replay branch binds the logged failure flag to `flag` (line
414-416) while lines 432 and 447 read `fail`, so `fail` is unassigned on
every replay path. -/
def evalfc (st : SolveState) (objFun : XView → PyNum × List PyNum × Int)
    (useGroups : Bool) (gids : List (String × Nat × Nat)) (x : List Rat)
    (ncon : Nat) : Except PyErr FcOut × SolveState × List HistWrite :=
  -- lines 388-398: variables groups handling
  let xn := expandGroups useGroups gids x
  -- lines 404-416: hot-start read on rank 0
  let step1 := evalfcHotRead st
  let st1 := step1.2.2
  -- lines 421-424 with pll = False: live evaluation exactly when the
  -- hot-start flag is (now) off
  let vals : Option PyNum × Option (List PyNum) × Option Int :=
    if st1.h_start = false then
      let r := objFun xn
      (some r.1, some r.2.1, some r.2.2)
    else (step1.1, step1.2.1, none)
  let ffO := vals.1
  let ggO := vals.2.1
  let failO := vals.2.2
  -- lines 427-432: history writes on rank 0 when recording
  let ws : List HistWrite × Option PyErr :=
    if st1.myrank = 0 ∧ st1.sto_hst then writeSeq x ffO ggO failO else ([], none)
  -- lines 435-447: complex-to-real coercion into the backend buffers, then
  -- the return (which reads `fail`)
  let res : Except PyErr FcOut :=
    match ws.2 with
    | some e => .error e
    | none =>
      match ffO with
      | none => .error (.nameError "ff")
      | some ff =>
        match ggO with
        | none => .error (.nameError "gg")
        | some gg =>
          let f := coerceReal ff
          let g := (List.range ncon).map fun i => coerceReal (gg.getD i (.real 0))
          match failO with
          | none => .error (.nameError "fail")
          | some fl => .ok ⟨f, g, fl⟩
  (res, st1, ws.1)

/-- numpy `reshape((rows, cols))` of a flattened array, as a row list
(row-major; out-of-range reads give 0 and are never exercised by the
verified runs). -/
def reshapeRows (l : List Rat) (rows cols : Nat) : List (List Rat) :=
  (List.range rows).map fun r => (List.range cols).map fun c => l.getD (r * cols + c) 0

/-- The values `evalgjac` hands back to the native solver: the dense
objective gradient and the sparse-format constraint Jacobian, whose entry
`k` is the triple `(jcfun[k], jcvar[k], jcval[k])`. -/
structure GjOut where
  jfval : List Rat
  jc : List (Nat × Nat × Rat)
  jcnnz : Nat
  fail : Int
deriving DecidableEq, Repr

/-- Lines 511-517 of `evalgjac`: the constraint-Jacobian fill loop over
constraints (outer) and variables (inner), carrying the running entry
counter `jcnnz` and appending one `(jcfun, jcvar, jcval)` triple per
entry. -/
def evalgjacLoop (m n : Nat) (dgg : Nat → Nat → Rat) :
    List (Nat × Nat × Rat) × Nat :=
  (List.range m).foldl
    (fun acc jj =>
      (List.range n).foldl
        (fun acc2 ii => (acc2.1 ++ [(jj + 1, ii + 1, dgg jj ii)], acc2.2 + 1))
        acc)
    ([], 0)

/-- Lines 471-484 of `evalgjac`: the hot-start read (outer test on the
flag, inner on the rank), binding the reshaped `dff`/`dgg` or turning the
hot-start flag off when the log is exhausted. -/
def evalgjacHotRead (st : SolveState) (nobj ncon nvar : Nat) :
    Option (List (List Rat)) × Option (List (List Rat)) × SolveState :=
  if st.h_start then
    if st.myrank = 0 then
      if st.gradPos < st.gradLog.length then
        let r := st.gradLog.getD st.gradPos ⟨[], []⟩
        (some (reshapeRows r.grad_obj nobj nvar),
         some (reshapeRows r.grad_con ncon nvar),
         { st with gradPos := st.gradPos + 1 })
      else (none, none, { st with h_start := false })
    else (none, none, st)
  else (none, none, st)

/-- Lines 452-519 (`evalgjac`), serial instance.  The gradient engine call
`gradient.getGrad` (whose code lives outside this source file) is an opaque
parameter returning the two dense matrices.  The replay branch never binds
`fail`, which line 519 returns. -/
def evalgjac (st : SolveState) (objFun : List Rat → PyNum × List PyNum × Int)
    (getGrad : List Rat → List (List Rat) × List (List Rat)) (x : List Rat)
    (nobj ncon nvar : Nat) :
    Except PyErr GjOut × SolveState × List HistWrite :=
  let step1 := evalgjacHotRead st nobj ncon nvar
  let st1 := step1.2.2
  -- lines 492-499: live evaluation when the hot-start flag is (now) off;
  -- the user model is called on the flat `x` (no group expansion here)
  let vals : Option (List (List Rat)) × Option (List (List Rat)) × Option Int :=
    if st1.h_start = false then
      let r := objFun x
      let gr := getGrad x
      (some gr.1, some gr.2, some r.2.2)
    else (step1.1, step1.2.1, none)
  let dffO := vals.1
  let dggO := vals.2.1
  let failO := vals.2.2
  -- lines 502-504: history writes when recording on rank 0
  let ws : List HistWrite :=
    if st1.sto_hst ∧ st1.myrank = 0 then
      match dffO, dggO with
      | some dff, some dgg => [.wgrad_obj dff, .wgrad_con dgg]
      | _, _ => []
    else []
  -- lines 507-519: buffer assignment and return (which reads `fail`)
  let res : Except PyErr GjOut :=
    match dffO with
    | none => .error (.nameError "dff")
    | some dff =>
      match dggO with
      | none => .error (.nameError "dgg")
      | some dgg =>
        let jfval := (List.range nvar).map fun i => (dff.getD 0 []).getD i 0
        let jc := evalgjacLoop ncon nvar (fun jj ii => (dgg.getD jj []).getD ii 0)
        match failO with
        | none => .error (.nameError "fail")
        | some fl => .ok ⟨jfval, jc.1, jc.2, fl⟩
  (res, st1, ws)

/-- Events of one parallel `evalfc` evaluation observable across ranks, in
program order. -/
inductive Ev where
  | hotStartRead (rank : Nat)
  | bcastFlag
  | bcastVals
  | modelCall (rank : Nat)
deriving DecidableEq, Repr

/-- Lines 404-424 of `evalfc` as the global cross-rank event sequence of
one evaluation with `nproc` ranks, paired with the Python error this
region raises, if any.  Rank 0 alone attempts the hot-start read (lines
405-416, clearing the flag when the log is exhausted); with `pll` the flag
is broadcast from root 0 (lines 418-419); then with replay still active
every rank evaluates the broadcast payload `[ff, gg, fail]` of line 422 —
which raises `NameError` before the broadcast can run, since `fail` is
unassigned on every rank (and `ff`, `gg` on every nonzero rank) — and
otherwise every rank invokes the user model (lines 423-424). -/
def evalfcEvents (nproc : Nat) (pll h0 hasRec : Bool) : List Ev × Option PyErr :=
  let readEvs := if h0 then [Ev.hotStartRead 0] else []
  let hAfter := h0 && hasRec
  let flagEvs := if pll then [Ev.bcastFlag] else []
  if hAfter && pll then
    (readEvs ++ flagEvs, some (.nameError "fail"))
  else if hAfter = false then
    (readEvs ++ flagEvs ++ (List.range nproc).map Ev.modelCall, none)
  else
    (readEvs ++ flagEvs, none)

/-- `os.remove`: drop a name from the file system (an association list of
file name and content). -/
def fsRemove (fs : List (String × String)) (n : String) : List (String × String) :=
  fs.filter (fun p => p.1 != n)

/-- Content under a name, if present. -/
def fsGet (fs : List (String × String)) (n : String) : Option String :=
  (fs.find? (fun p => p.1 == n)).map (fun p => p.2)

/-- Whether a name exists. -/
def fsExists (fs : List (String × String)) (n : String) : Bool :=
  (fsGet fs n).isSome

/-- `os.rename src dst` (the missing-source case never arises in the
verified runs). -/
def fsRename (fs : List (String × String)) (src dst : String) :
    List (String × String) :=
  match fsGet fs src with
  | none => fs
  | some c => fsRemove (fsRemove fs src) dst ++ [(dst, c)]

/-- A file-system call. -/
inductive FsOp where
  | remove (n : String)
  | rename (src dst : String)
deriving DecidableEq, Repr

/-- Lines 650-654 of `__solve__`: the promotion of the temporary hot-start
log `name_tmp.{cue,bin}` onto the canonical `name.{cue,bin}`, as the exact
sequence of file-system calls the source makes: two removes, then two
renames. -/
def finalizeOps (name : String) : List FsOp :=
  [FsOp.remove (name ++ ".cue"), FsOp.remove (name ++ ".bin"),
   FsOp.rename (name ++ "_tmp.cue") (name ++ ".cue"),
   FsOp.rename (name ++ "_tmp.bin") (name ++ ".bin")]

/-- Effect of one call. -/
def applyOp (fs : List (String × String)) : FsOp → List (String × String)
  | .remove n => fsRemove fs n
  | .rename src dst => fsRename fs src dst

/-- Effect of a sequence of calls; a prefix of the sequence models a run
interrupted mid-promotion. -/
def applyOps (fs : List (String × String)) (ops : List FsOp) :
    List (String × String) :=
  ops.foldl applyOp fs

end PyALGENCAN

namespace PyALGENCAN

/-- C10: constructing the ALGENCAN optimizer succeeds exactly for `pll_type`
equal to `None` (parallel flag false) or a string upper-casing to `"POA"`
(parallel flag true); every other value raises `ValueError` and no state is
produced. -/
theorem C10_init_poa_flag (p : Option String) :
    (p = none → ALGENCAN_init p = .ok ⟨false⟩) ∧
    (∀ s, p = some s →
      (strUpper s = "POA" → ALGENCAN_init p = .ok ⟨true⟩) ∧
      (strUpper s ≠ "POA" →
        ALGENCAN_init p =
          .error (.valueError "pll_type must be either None or POA"))) := by
  refine ⟨fun h => by simp [h, ALGENCAN_init], fun s hs => ⟨fun hup => ?_, fun hup => ?_⟩⟩
  · simp [hs, ALGENCAN_init, hup]
  · simp [hs, ALGENCAN_init, hup]

/-- Witness for C10 at the concrete inputs `some "poa"`. -/
theorem C10_init_poa_flag_witness :
    ALGENCAN_init (some "poa") = .ok ⟨true⟩ :=
  ((C10_init_poa_flag (some "poa")).2 "poa" rfl).1 (by decide)

/-- When every variable is continuous, variables handling succeeds and the
flattened vectors are exactly the per-variable bounds and values in order. -/
theorem variablesHandling_ok_of_continuous (vars : List PVariable)
    (h : ∀ v ∈ vars, v.kind = VarKind.c) :
    variablesHandling vars =
      .ok (vars.map PVariable.lower, vars.map PVariable.upper, vars.map PVariable.value) := by
  induction vars with
  | nil => rfl
  | cons v rest ih =>
    have hv : v.kind = VarKind.c := h v (by simp)
    have hr := ih (fun w hw => h w (by simp [hw]))
    simp [variablesHandling, hv, hr]

/-- When some variable is non-continuous, variables handling raises one of
the two `IOError`s of lines 531-534. -/
theorem variablesHandling_error_of_bad (vars : List PVariable)
    (h : ∃ v ∈ vars, v.kind ≠ VarKind.c) :
    variablesHandling vars = .error (.ioError "NLPQL cannot handle integer design variables") ∨
    variablesHandling vars = .error (.ioError "NLPQL cannot handle discrete design variables") := by
  induction vars with
  | nil => simp at h
  | cons v rest ih =>
    by_cases hv : v.kind = VarKind.c
    · have hrest : ∃ w ∈ rest, w.kind ≠ VarKind.c := by
        obtain ⟨w, hw, hwk⟩ := h
        rcases List.mem_cons.mp hw with h1 | h2
        · subst h1; exact absurd hv hwk
        · exact ⟨w, h2, hwk⟩
      rcases ih hrest with h' | h'
      · left; simp [variablesHandling, hv, h']
      · right; simp [variablesHandling, hv, h']
    · cases hk : v.kind with
      | c => exact absurd hk hv
      | i => left; simp [variablesHandling, hk]
      | d => right; simp [variablesHandling, hk]

/-- C3 counterexample: a problem whose only variable is the integer variable
`x_int` is rejected with `IOError` (not the `ConfigurationError` the claim
requires), and the message does not identify the offending variable (it
does not even name the right backend). -/
theorem C3_counterexample_ioerror_not_config :
    variablesHandling [⟨"x_int", VarKind.i, 0, 10, 5⟩] =
      .error (.ioError "NLPQL cannot handle integer design variables") ∧
    containsSub "NLPQL cannot handle integer design variables" "x_int" = false ∧
    ∀ m, PyErr.ioError "NLPQL cannot handle integer design variables" ≠
      PyErr.configurationError m :=
  ⟨rfl, by decide, fun _ h => PyErr.noConfusion h⟩

/-- C3 (amended): a problem containing an integer- or discrete-kind variable
is rejected during setup, before any evaluation, but with an `IOError`
whose copy-pasted message names the NLPQL backend and not the offending
variable — not with a `ConfigurationError`; the variable is never silently
coerced: setup succeeds with exact per-variable data only when every
variable is continuous. -/
theorem C3_reject_noncontinuous_amended (vars : List PVariable) (useGroups : Bool)
    (groups : List VarGroup) (cons : List PConstraint) :
    ((∃ v ∈ vars, v.kind ≠ VarKind.c) →
      solveSetup vars useGroups groups cons =
        .error (.ioError "NLPQL cannot handle integer design variables") ∨
      solveSetup vars useGroups groups cons =
        .error (.ioError "NLPQL cannot handle discrete design variables")) ∧
    ((∀ v ∈ vars, v.kind = VarKind.c) →
      variablesHandling vars =
        .ok (vars.map PVariable.lower, vars.map PVariable.upper, vars.map PVariable.value)) := by
  constructor
  · intro h
    rcases variablesHandling_error_of_bad vars h with h' | h'
    · left; simp [solveSetup, h']
    · right; simp [solveSetup, h']
  · exact variablesHandling_ok_of_continuous vars

/-- Witness for C3 (amended) at a concrete one-integer-variable problem. -/
theorem C3_reject_noncontinuous_amended_witness :
    solveSetup [⟨"x_int", VarKind.i, 0, 10, 5⟩] false [] [] =
        .error (.ioError "NLPQL cannot handle integer design variables") ∨
    solveSetup [⟨"x_int", VarKind.i, 0, 10, 5⟩] false [] [] =
        .error (.ioError "NLPQL cannot handle discrete design variables") :=
  (C3_reject_noncontinuous_amended [⟨"x_int", VarKind.i, 0, 10, 5⟩] false [] []).1
    ⟨⟨"x_int", VarKind.i, 0, 10, 5⟩, by decide, by decide⟩

/-- C4 counterexample: a constraint-free problem over one continuous
variable is rejected at setup with `IOError`, not with the
`ConfigurationError` the claim requires. -/
theorem C4_counterexample_ioerror_not_config :
    solveSetup [⟨"x1", VarKind.c, -10, 10, 3⟩] false [] [] =
      .error (.ioError "ALGENCAN support for unconstrained problems not implemented yet") ∧
    ∀ m, PyErr.ioError "ALGENCAN support for unconstrained problems not implemented yet" ≠
      PyErr.configurationError m :=
  ⟨rfl, fun _ h => PyErr.noConfusion h⟩

/-- C4 (amended): every zero-constraint problem (with backend-acceptable,
i.e. all-continuous, variables) is rejected at setup, before any
evaluation, but by raising `IOError`, not `ConfigurationError`. -/
theorem C4_reject_unconstrained_amended (vars : List PVariable) (useGroups : Bool)
    (groups : List VarGroup) (hc : ∀ v ∈ vars, v.kind = VarKind.c) :
    solveSetup vars useGroups groups [] =
      .error (.ioError "ALGENCAN support for unconstrained problems not implemented yet") := by
  have h := variablesHandling_ok_of_continuous vars hc
  simp [solveSetup, h, constraintsHandling]

/-- Witness for C4 (amended) at a concrete unconstrained problem. -/
theorem C4_reject_unconstrained_amended_witness :
    solveSetup [⟨"x1", VarKind.c, -10, 10, 3⟩] false [] [] =
      .error (.ioError "ALGENCAN support for unconstrained problems not implemented yet") :=
  C4_reject_unconstrained_amended [⟨"x1", VarKind.c, -10, 10, 3⟩] false [] (by decide)

/-- Unrolling the group-ids fold from an arbitrary accumulator. -/
theorem computeGroupIds_foldl (gs : List VarGroup) :
    ∀ (acc : List (String × Nat × Nat)) (k : Nat),
      gs.foldl
        (fun (a : List (String × Nat × Nat) × Nat) g =>
          (a.1 ++ [(g.name, a.2, a.2 + g.ids.length)], a.2 + g.ids.length))
        (acc, k) =
      (acc ++ buildGids gs k, k + (gs.map (fun g => g.ids.length)).sum) := by
  induction gs with
  | nil => intro acc k; simp [buildGids]
  | cons g rest ih =>
    intro acc k
    simp only [List.foldl_cons]
    rw [ih]
    simp [buildGids, Nat.add_assoc]

/-- The group-ids table is the recursive table starting at offset 0. -/
theorem computeGroupIds_eq_buildGids (gs : List VarGroup) :
    computeGroupIds gs = buildGids gs 0 := by
  unfold computeGroupIds
  rw [computeGroupIds_foldl gs [] 0]
  simp

/-- Entry `j` of the recursive group table built from offset `k`. -/
theorem buildGids_getElem (gs : List VarGroup) :
    ∀ (k j : Nat) (g : VarGroup), gs[j]? = some g →
      (buildGids gs k)[j]? =
        some (g.name, k + groupOffset gs j, k + groupOffset gs j + g.ids.length) := by
  induction gs with
  | nil => intro k j g h; simp at h
  | cons g0 rest ih =>
    intro k j g h
    cases j with
    | zero =>
      simp only [List.getElem?_cons_zero, Option.some.injEq] at h
      subst h
      simp [buildGids, groupOffset]
    | succ j' =>
      rw [List.getElem?_cons_succ] at h
      have h2 := ih (k + g0.ids.length) j' g h
      have hoff : groupOffset (g0 :: rest) (j' + 1) =
          g0.ids.length + groupOffset rest j' := by
        simp [groupOffset, List.take_succ_cons]
      simp [buildGids, h2, hoff, Nat.add_assoc]

/-- C8: with groups enabled, the grouped view maps the `j`-th group (whose
table entry, computed once at solve setup, is the contiguous range
`[s, s + len)` with `s` the sum of preceding group lengths) to the scalar
`x[s]` exactly when its range spans one index, and to the slice
`x[s:s+len]` otherwise; with groups disabled the flat vector is passed
through unchanged. -/
theorem C8_grouped_view (groups : List VarGroup) (x : List Rat) (j : Nat) (g : VarGroup)
    (hj : groups[j]? = some g) :
    (computeGroupIds groups)[j]? =
      some (g.name, groupOffset groups j, groupOffset groups j + g.ids.length) ∧
    (groupedEntries (expandGroups true (computeGroupIds groups) x))[j]? =
      some (g.name,
        if g.ids.length = 1 then GroupVal.scalar (x.getD (groupOffset groups j) 0)
        else GroupVal.vec (pySlice x (groupOffset groups j)
              (groupOffset groups j + g.ids.length))) ∧
    expandGroups false (computeGroupIds groups) x = XView.flat x := by
  have h1 : (computeGroupIds groups)[j]? =
      some (g.name, groupOffset groups j, groupOffset groups j + g.ids.length) := by
    rw [computeGroupIds_eq_buildGids]
    simpa using buildGids_getElem groups 0 j g hj
  refine ⟨h1, ?_, rfl⟩
  simp [expandGroups, groupedEntries, List.getElem?_map, h1, Nat.add_sub_cancel_left]

/-- Witness for C8 on a two-group problem (`a` spans one index, `b` two). -/
theorem C8_grouped_view_witness :
    (computeGroupIds [⟨"a", [0]⟩, ⟨"b", [1, 2]⟩])[1]? =
      some ("b", groupOffset [⟨"a", [0]⟩, ⟨"b", [1, 2]⟩] 1,
        groupOffset [⟨"a", [0]⟩, ⟨"b", [1, 2]⟩] 1 + 2) ∧
    (groupedEntries (expandGroups true (computeGroupIds [⟨"a", [0]⟩, ⟨"b", [1, 2]⟩])
        [5, 6, 7]))[1]? =
      some ("b",
        if ([1, 2] : List Nat).length = 1 then
          GroupVal.scalar (List.getD [5, 6, 7] (groupOffset [⟨"a", [0]⟩, ⟨"b", [1, 2]⟩] 1) 0)
        else GroupVal.vec (pySlice [5, 6, 7] (groupOffset [⟨"a", [0]⟩, ⟨"b", [1, 2]⟩] 1)
          (groupOffset [⟨"a", [0]⟩, ⟨"b", [1, 2]⟩] 1 + 2))) ∧
    expandGroups false (computeGroupIds [⟨"a", [0]⟩, ⟨"b", [1, 2]⟩]) [5, 6, 7] =
      XView.flat [5, 6, 7] :=
  C8_grouped_view [⟨"a", [0]⟩, ⟨"b", [1, 2]⟩] [5, 6, 7] 1 ⟨"b", [1, 2]⟩ (by decide)

/-- C1: the code contradicts the replay contract.  With a hot-start log
holding one unread record (objective 3, constraint vector [1], failure flag
0) and recording off, the serial replay path of `evalfc` does not return
the logged values: it raises `NameError` on `fail` (Python raises
`UnboundLocalError` at line 447), because lines 414-416 bind the logged
failure flag to the local `flag` while lines 432 and 447 read `fail`,
which no replay path ever assigns.  The state shows the record was
consumed (cursor advanced, hot-start still on), and no live evaluation of
the decoy model (which would have produced objective 7) took place. -/
theorem C1_replay_raises_unbound_fail :
    evalfc ⟨0, true, false, [⟨.real 3, [.real 1], 0⟩], 0, [], 0⟩
      (fun _ => (.real 7, [.real 8], 0)) false [] [2] 1 =
    (.error (.nameError "fail"),
     ⟨0, true, false, [⟨.real 3, [.real 1], 0⟩], 1, [], 0⟩, []) := by decide

/-- C6 counterexample: on a live recorded evaluation whose model returns
the complex objective 1+2i and complex constraint 3+4i, the history log
receives the raw complex values (the writes of lines 429-432 run before
the coercion of lines 435-445), while the backend buffers receive the
coerced real parts — so a complex value does reach the log. -/
theorem C6_counterexample_complex_written_to_log :
    evalfc ⟨0, false, true, [], 0, [], 0⟩
      (fun _ => (.cplx 1 2, [.cplx 3 4], 0)) false [] [2] 1 =
    (.ok ⟨.real 1, [.real 3], 0⟩, ⟨0, false, true, [], 0, [], 0⟩,
     [.wx [2], .wobj (.cplx 1 2), .wcon [.cplx 3 4], .wfail 0]) ∧
    PyNum.isComplexInstance (.cplx 1 2) = true := by decide

/-- Unrolling the inner (variable) loop of the Jacobian fill from an
arbitrary accumulator. -/
theorem jacFill_inner (g : Nat → Nat × Nat × Rat) (xs : List Nat) :
    ∀ (l : List (Nat × Nat × Rat)) (c : Nat),
      xs.foldl (fun acc2 ii => (acc2.1 ++ [g ii], acc2.2 + 1)) (l, c) =
      (l ++ xs.map g, c + xs.length) := by
  induction xs with
  | nil => intro l c; simp
  | cons a rest ih =>
    intro l c
    simp only [List.foldl_cons]
    rw [ih]
    have h1 : l ++ [g a] ++ List.map g rest = l ++ List.map g (a :: rest) := by simp
    have h2 : c + 1 + rest.length = c + (a :: rest).length := by
      simp only [List.length_cons]; omega
    rw [h1, h2]

/-- Peeling the last constraint row off the Jacobian fill loop. -/
theorem evalgjacLoop_succ (m n : Nat) (dgg : Nat → Nat → Rat) :
    evalgjacLoop (m + 1) n dgg =
      ((evalgjacLoop m n dgg).1 ++
        (List.range n).map (fun ii => (m + 1, ii + 1, dgg m ii)),
       (evalgjacLoop m n dgg).2 + n) := by
  unfold evalgjacLoop
  rw [List.range_succ, List.foldl_append]
  simp only [List.foldl_cons, List.foldl_nil]
  rw [jacFill_inner (fun ii => (m + 1, ii + 1, dgg m ii)) (List.range n)]
  simp

/-- First component of the peel. -/
theorem evalgjacLoop_fst_succ (m n : Nat) (dgg : Nat → Nat → Rat) :
    (evalgjacLoop (m + 1) n dgg).1 =
      (evalgjacLoop m n dgg).1 ++
        (List.range n).map (fun ii => (m + 1, ii + 1, dgg m ii)) := by
  rw [evalgjacLoop_succ]

/-- Second component of the peel. -/
theorem evalgjacLoop_snd_succ (m n : Nat) (dgg : Nat → Nat → Rat) :
    (evalgjacLoop (m + 1) n dgg).2 = (evalgjacLoop m n dgg).2 + n := by
  rw [evalgjacLoop_succ]

/-- The final `jcnnz` counter equals `m * n`. -/
theorem evalgjacLoop_jcnnz (m n : Nat) (dgg : Nat → Nat → Rat) :
    (evalgjacLoop m n dgg).2 = m * n := by
  induction m with
  | zero => simp [evalgjacLoop]
  | succ m ih => rw [evalgjacLoop_snd_succ, ih, Nat.succ_mul]

/-- The entry list has `m * n` entries. -/
theorem evalgjacLoop_length (m n : Nat) (dgg : Nat → Nat → Rat) :
    (evalgjacLoop m n dgg).1.length = m * n := by
  induction m with
  | zero => simp [evalgjacLoop]
  | succ m ih => rw [evalgjacLoop_fst_succ]; simp [ih, Nat.succ_mul]

/-- Entry `jj * n + ii` of the fill loop is the 1-based indexed dense
element of constraint `jj`, variable `ii`. -/
theorem evalgjacLoop_getElem (m n : Nat) (dgg : Nat → Nat → Rat) :
    ∀ jj ii, jj < m → ii < n →
      (evalgjacLoop m n dgg).1[jj * n + ii]? = some (jj + 1, ii + 1, dgg jj ii) := by
  induction m with
  | zero => intro jj ii hj _; exact absurd hj (Nat.not_lt_zero jj)
  | succ m ih =>
    intro jj ii hj hi
    rw [evalgjacLoop_fst_succ]
    rcases Nat.lt_succ_iff_lt_or_eq.mp hj with hj' | hj'
    · have hidx : jj * n + ii < (evalgjacLoop m n dgg).1.length := by
        rw [evalgjacLoop_length]
        calc jj * n + ii < jj * n + n := Nat.add_lt_add_left hi _
          _ = (jj + 1) * n := (Nat.succ_mul jj n).symm
          _ ≤ m * n := Nat.mul_le_mul_right n hj'
      rw [List.getElem?_append_left hidx]
      exact ih jj ii hj' hi
    · subst hj'
      have hlen : (evalgjacLoop jj n dgg).1.length ≤ jj * n + ii := by
        rw [evalgjacLoop_length]; exact Nat.le_add_right _ _
      rw [List.getElem?_append_right hlen, evalgjacLoop_length]
      simp [Nat.add_sub_cancel_left, List.getElem?_range, hi]

/-- C5: on a live gradient evaluation with `ncon` constraints and `nvar`
variables, the constraint-Jacobian buffers hold `jcnnz = ncon * nvar`
entries enumerated in constraint-major, variable-minor order, entry `k`
carrying the 1-based indices `jcfun = k / nvar + 1`,
`jcvar = k % nvar + 1` and the dense element
`jcval = dgg[k / nvar][k % nvar]`. -/
theorem C5_jacobian_one_based (st : SolveState)
    (objFun : List Rat → PyNum × List PyNum × Int)
    (getGrad : List Rat → List (List Rat) × List (List Rat)) (x : List Rat)
    (nobj ncon nvar : Nat) (hh : st.h_start = false) :
    ∃ out : GjOut,
      (evalgjac st objFun getGrad x nobj ncon nvar).1 = .ok out ∧
      out.jcnnz = ncon * nvar ∧
      out.jc.length = ncon * nvar ∧
      ∀ k, k < ncon * nvar →
        out.jc[k]? = some (k / nvar + 1, k % nvar + 1,
          ((getGrad x).2.getD (k / nvar) []).getD (k % nvar) 0) := by
  have hread : evalgjacHotRead st nobj ncon nvar = (none, none, st) := by
    unfold evalgjacHotRead
    simp [hh]
  refine ⟨⟨(List.range nvar).map (fun i => ((getGrad x).1.getD 0 []).getD i 0),
      (evalgjacLoop ncon nvar (fun jj ii => ((getGrad x).2.getD jj []).getD ii 0)).1,
      (evalgjacLoop ncon nvar (fun jj ii => ((getGrad x).2.getD jj []).getD ii 0)).2,
      (objFun x).2.2⟩, ?_, evalgjacLoop_jcnnz ncon nvar _, evalgjacLoop_length ncon nvar _, ?_⟩
  · simp [evalgjac, hread, hh]
  · intro k hk
    have hn : 0 < nvar := by
      rcases Nat.eq_zero_or_pos nvar with h0 | h0
      · rw [h0, Nat.mul_zero] at hk; exact absurd hk (Nat.not_lt_zero k)
      · exact h0
    have hjj : k / nvar < ncon := (Nat.div_lt_iff_lt_mul hn).mpr hk
    have hii : k % nvar < nvar := Nat.mod_lt k hn
    have hsplit : k / nvar * nvar + k % nvar = k := by
      rw [Nat.mul_comm (k / nvar) nvar]
      exact Nat.div_add_mod k nvar
    have hidx := evalgjacLoop_getElem ncon nvar
      (fun jj ii => ((getGrad x).2.getD jj []).getD ii 0) (k / nvar) (k % nvar) hjj hii
    rw [hsplit] at hidx
    exact hidx

/-- Witness for C5 on a concrete 2-constraint, 2-variable problem. -/
theorem C5_jacobian_one_based_witness :
    ∃ out : GjOut,
      (evalgjac ⟨0, false, false, [], 0, [], 0⟩
        (fun _ => (.real 0, [.real 0, .real 0], 0))
        (fun _ => ([[1, 2]], [[10, 20], [30, 40]])) [0, 0] 1 2 2).1 = .ok out ∧
      out.jcnnz = 2 * 2 ∧
      out.jc.length = 2 * 2 ∧
      ∀ k, k < 2 * 2 →
        out.jc[k]? = some (k / 2 + 1, k % 2 + 1,
          ((([[(10 : Rat), 20], [30, 40]]) : List (List Rat)).getD (k / 2) []).getD (k % 2) 0) :=
  C5_jacobian_one_based ⟨0, false, false, [], 0, [], 0⟩
    (fun _ => (.real 0, [.real 0, .real 0], 0))
    (fun _ => ([[1, 2]], [[10, 20], [30, 40]])) [0, 0] 1 2 2 rfl

/-- The coercion of lines 435-445 always yields a non-complex value. -/
theorem coerceReal_not_complex (v : PyNum) :
    (coerceReal v).isComplexInstance = false := by
  cases v <;> rfl

/-- C6 (amended): every objective/constraint result, complex ones included,
is coerced to real before it reaches the backend buffers, but the history
log receives the raw values: the writes of lines 429-432 run before the
coercion of lines 435-445, so a complex result is stored in the log
uncoerced. -/
theorem C6_coerce_before_buffers_amended (st : SolveState)
    (objFun : XView → PyNum × List PyNum × Int) (useGroups : Bool)
    (gids : List (String × Nat × Nat)) (x : List Rat) (ncon : Nat)
    (hh : st.h_start = false) :
    ∃ out : FcOut,
      (evalfc st objFun useGroups gids x ncon).1 = .ok out ∧
      out.f = coerceReal (objFun (expandGroups useGroups gids x)).1 ∧
      out.g = (List.range ncon).map (fun i =>
        coerceReal ((objFun (expandGroups useGroups gids x)).2.1.getD i (.real 0))) ∧
      out.f.isComplexInstance = false ∧
      (∀ v ∈ out.g, v.isComplexInstance = false) ∧
      (evalfc st objFun useGroups gids x ncon).2.2 =
        (if st.myrank = 0 ∧ st.sto_hst = true then
          [HistWrite.wx x, HistWrite.wobj (objFun (expandGroups useGroups gids x)).1,
           HistWrite.wcon (objFun (expandGroups useGroups gids x)).2.1,
           HistWrite.wfail (objFun (expandGroups useGroups gids x)).2.2]
         else []) := by
  have hread : evalfcHotRead st = (none, none, st) := by
    unfold evalfcHotRead
    simp [hh]
  refine ⟨⟨coerceReal (objFun (expandGroups useGroups gids x)).1,
      (List.range ncon).map (fun i =>
        coerceReal ((objFun (expandGroups useGroups gids x)).2.1.getD i (.real 0))),
      (objFun (expandGroups useGroups gids x)).2.2⟩,
    ?_, rfl, rfl, coerceReal_not_complex _, ?_, ?_⟩
  · by_cases hc : st.myrank = 0 ∧ st.sto_hst = true
    · simp [evalfc, hread, hh, hc, writeSeq]
    · simp [evalfc, hread, hh, hc]
  · intro v hv
    simp only [List.mem_map] at hv
    obtain ⟨i, _, hvi⟩ := hv
    rw [← hvi]
    exact coerceReal_not_complex _
  · by_cases hc : st.myrank = 0 ∧ st.sto_hst = true
    · simp [evalfc, hread, hh, hc, writeSeq]
    · simp [evalfc, hread, hh, hc]

/-- Witness for C6 (amended) on a recording rank-0 evaluation with complex
results. -/
theorem C6_coerce_before_buffers_amended_witness :
    ∃ out : FcOut,
      (evalfc ⟨0, false, true, [], 0, [], 0⟩
        (fun _ => (PyNum.cplx 1 2, [PyNum.cplx 3 4], (0 : Int))) false [] [2] 1).1 =
        .ok out ∧
      out.f = coerceReal (PyNum.cplx 1 2) ∧
      out.g = (List.range 1).map (fun i =>
        coerceReal (([PyNum.cplx 3 4]).getD i (.real 0))) ∧
      out.f.isComplexInstance = false ∧
      (∀ v ∈ out.g, v.isComplexInstance = false) ∧
      (evalfc ⟨0, false, true, [], 0, [], 0⟩
        (fun _ => (PyNum.cplx 1 2, [PyNum.cplx 3 4], (0 : Int))) false [] [2] 1).2.2 =
        (if (0 : Nat) = 0 ∧ true = true then
          [HistWrite.wx [2], HistWrite.wobj (PyNum.cplx 1 2),
           HistWrite.wcon [PyNum.cplx 3 4], HistWrite.wfail 0]
         else []) :=
  C6_coerce_before_buffers_amended ⟨0, false, true, [], 0, [], 0⟩
    (fun _ => (PyNum.cplx 1 2, [PyNum.cplx 3 4], (0 : Int))) false [] [2] 1 rfl

/-- The hot-start read never changes the process rank. -/
theorem evalfcHotRead_myrank (st : SolveState) :
    (evalfcHotRead st).2.2.myrank = st.myrank := by
  unfold evalfcHotRead
  split_ifs <;> rfl

/-- The hot-start read never changes the recording flag. -/
theorem evalfcHotRead_sto (st : SolveState) :
    (evalfcHotRead st).2.2.sto_hst = st.sto_hst := by
  unfold evalfcHotRead
  split_ifs <;> rfl

/-- The gradient hot-start read never changes the process rank. -/
theorem evalgjacHotRead_myrank (st : SolveState) (nobj ncon nvar : Nat) :
    (evalgjacHotRead st nobj ncon nvar).2.2.myrank = st.myrank := by
  unfold evalgjacHotRead
  split_ifs <;> rfl

/-- The gradient hot-start read never changes the recording flag. -/
theorem evalgjacHotRead_sto (st : SolveState) (nobj ncon nvar : Nat) :
    (evalgjacHotRead st nobj ncon nvar).2.2.sto_hst = st.sto_hst := by
  unfold evalgjacHotRead
  split_ifs <;> rfl

/-- C9: the evaluation callbacks write to the history log only on rank 0
with recording enabled: on a process of nonzero rank, or with recording
disabled, neither `evalfc` nor `evalgjac` performs any history write. -/
theorem C9_writes_only_rank0 (st : SolveState)
    (objFun : XView → PyNum × List PyNum × Int)
    (objFunFlat : List Rat → PyNum × List PyNum × Int)
    (getGrad : List Rat → List (List Rat) × List (List Rat))
    (useGroups : Bool) (gids : List (String × Nat × Nat)) (x : List Rat)
    (nobj ncon nvar : Nat)
    (h : st.myrank ≠ 0 ∨ st.sto_hst = false) :
    (evalfc st objFun useGroups gids x ncon).2.2 = [] ∧
    (evalgjac st objFunFlat getGrad x nobj ncon nvar).2.2 = [] := by
  have hcond : ¬((evalfcHotRead st).2.2.myrank = 0 ∧ (evalfcHotRead st).2.2.sto_hst = true) := by
    rw [evalfcHotRead_myrank, evalfcHotRead_sto]
    rcases h with h | h
    · exact fun hc => h hc.1
    · simp [h]
  have hcond2 : ¬((evalgjacHotRead st nobj ncon nvar).2.2.sto_hst = true ∧
      (evalgjacHotRead st nobj ncon nvar).2.2.myrank = 0) := by
    rw [evalgjacHotRead_myrank, evalgjacHotRead_sto]
    rcases h with h | h
    · exact fun hc => h hc.2
    · simp [h]
  constructor
  · simp [evalfc, hcond]
  · simp [evalgjac, hcond2]

/-- Witness for C9 on a rank-1 process with recording on. -/
theorem C9_writes_only_rank0_witness :
    (evalfc ⟨1, false, true, [], 0, [], 0⟩ (fun _ => (.real 0, [.real 0], 0))
      false [] [0] 1).2.2 = [] ∧
    (evalgjac ⟨1, false, true, [], 0, [], 0⟩ (fun _ => (.real 0, [.real 0], 0))
      (fun _ => ([[0]], [[0]])) [0] 1 1 1).2.2 = [] :=
  C9_writes_only_rank0 ⟨1, false, true, [], 0, [], 0⟩
    (fun _ => (.real 0, [.real 0], 0)) (fun _ => (.real 0, [.real 0], 0))
    (fun _ => ([[0]], [[0]])) false [] [0] 1 1 1 (Or.inl (by decide))

/-- Ordering of the parallel evaluation events: the hot-start read belongs
to rank 0 only, the flag broadcast is always present, every model call is
strictly preceded by the flag broadcast, and with replay active no model
call happens at all — the region instead raises the `NameError` of the
unassigned `fail` while building the line-422 broadcast payload. -/
theorem evalfcEvents_order (nproc : Nat) (h0 hasRec : Bool) :
    (∀ r : Nat, Ev.hotStartRead r ∈ (evalfcEvents nproc true h0 hasRec).1 → r = 0) ∧
    Ev.bcastFlag ∈ (evalfcEvents nproc true h0 hasRec).1 ∧
    (∀ (i r : Nat), ((evalfcEvents nproc true h0 hasRec).1)[i]? = some (Ev.modelCall r) →
      ∃ j : Nat, j < i ∧ ((evalfcEvents nproc true h0 hasRec).1)[j]? = some Ev.bcastFlag) ∧
    ((h0 && hasRec) = true →
      (evalfcEvents nproc true h0 hasRec).1 = [Ev.hotStartRead 0, Ev.bcastFlag] ∧
      (evalfcEvents nproc true h0 hasRec).2 = some (.nameError "fail")) := by
  cases h0 with
  | false =>
    have he : evalfcEvents nproc true false hasRec =
        (Ev.bcastFlag :: (List.range nproc).map Ev.modelCall, none) := by
      simp [evalfcEvents]
    rw [he]
    refine ⟨?_, List.mem_cons_self _ _, ?_, ?_⟩
    · intro r hr
      simp [List.mem_cons, List.mem_map] at hr
    · intro i r hi
      cases i with
      | zero => simp at hi
      | succ i' => exact ⟨0, Nat.succ_pos i', by simp⟩
    · intro hc
      simp at hc
  | true =>
    cases hasRec with
    | false =>
      have he : evalfcEvents nproc true true false =
          (Ev.hotStartRead 0 :: Ev.bcastFlag :: (List.range nproc).map Ev.modelCall,
           none) := by
        simp [evalfcEvents]
      rw [he]
      refine ⟨?_, ?_, ?_, ?_⟩
      · intro r hr
        simp [List.mem_cons, List.mem_map] at hr
        exact hr
      · simp
      · intro i r hi
        cases i with
        | zero => simp at hi
        | succ i1 =>
          cases i1 with
          | zero => simp at hi
          | succ i2 => exact ⟨1, by omega, by simp⟩
      · intro hc
        simp at hc
    | true =>
      have he : evalfcEvents nproc true true true =
          ([Ev.hotStartRead 0, Ev.bcastFlag], some (.nameError "fail")) := by
        simp [evalfcEvents]
      rw [he]
      refine ⟨?_, ?_, ?_, fun _ => ⟨rfl, rfl⟩⟩
      · intro r hr
        simp at hr
        exact hr
      · simp
      · intro i r hi
        cases i with
        | zero => simp at hi
        | succ i1 =>
          cases i1 with
          | zero => simp at hi
          | succ i2 => simp at hi

/-- C7: the code contradicts the replayed-value broadcast of the claim.
With two ranks, hot-start active and an unread record, the evaluation
region performs the rank-0 read and then the flag broadcast, in order, but
raises `NameError` while building the broadcast payload of line 422 (its
`fail` is assigned on no rank, and `ff`, `gg` on no nonzero rank — the
same slip as in C1), so the replayed values are never broadcast; no rank
invokes the user model, and no value broadcast event ever occurs. -/
theorem C7_parallel_replay_payload_raises :
    (evalfcEvents 2 true true true).1 = [Ev.hotStartRead 0, Ev.bcastFlag] ∧
    (evalfcEvents 2 true true true).2 = some (.nameError "fail") ∧
    Ev.bcastVals ∉ (evalfcEvents 2 true true true).1 ∧
    Ev.modelCall 0 ∉ (evalfcEvents 2 true true true).1 ∧
    Ev.modelCall 1 ∉ (evalfcEvents 2 true true true).1 := by decide

/-- C2 counterexample: with the canonical log `h.{cue,bin}` and the
temporary log `h_tmp.{cue,bin}` all present, interrupting the promotion
after its first two file-system calls (the removes of lines 651-652)
leaves both canonical names missing while the temporary files are still
unrenamed — the replacement is not all-or-nothing and the interrupted
run does not leave the original log intact. -/
theorem C2_counterexample_promotion_not_atomic :
    fsExists (applyOps
      [("h.cue", "origCue"), ("h.bin", "origBin"),
       ("h_tmp.cue", "tmpCue"), ("h_tmp.bin", "tmpBin")]
      ((finalizeOps "h").take 2)) "h.cue" = false ∧
    fsExists (applyOps
      [("h.cue", "origCue"), ("h.bin", "origBin"),
       ("h_tmp.cue", "tmpCue"), ("h_tmp.bin", "tmpBin")]
      ((finalizeOps "h").take 2)) "h.bin" = false ∧
    fsExists (applyOps
      [("h.cue", "origCue"), ("h.bin", "origBin"),
       ("h_tmp.cue", "tmpCue"), ("h_tmp.bin", "tmpBin")]
      ((finalizeOps "h").take 2)) "h_tmp.cue" = true ∧
    ((finalizeOps "h").take 2).length < (finalizeOps "h").length := by decide

/-- C2 (amended): promotion replaces the canonical log by remove-then-
rename, not by an atomic rename-over-existing: the completed sequence does
leave the temporary contents under the canonical names with the temporary
names gone, but after the two removes and before the renames both
canonical names are missing, so interruption mid-promotion loses the
canonical log. -/
theorem C2_promotion_remove_then_rename (name cO bO cT bT : String)
    (h1 : name ++ ".bin" ≠ name ++ ".cue")
    (h2 : name ++ "_tmp.cue" ≠ name ++ ".cue")
    (h3 : name ++ "_tmp.bin" ≠ name ++ ".cue")
    (h4 : name ++ "_tmp.cue" ≠ name ++ ".bin")
    (h5 : name ++ "_tmp.bin" ≠ name ++ ".bin")
    (h6 : name ++ "_tmp.bin" ≠ name ++ "_tmp.cue") :
    (fsGet (applyOps
        [(name ++ ".cue", cO), (name ++ ".bin", bO),
         (name ++ "_tmp.cue", cT), (name ++ "_tmp.bin", bT)]
        (finalizeOps name)) (name ++ ".cue") = some cT ∧
     fsGet (applyOps
        [(name ++ ".cue", cO), (name ++ ".bin", bO),
         (name ++ "_tmp.cue", cT), (name ++ "_tmp.bin", bT)]
        (finalizeOps name)) (name ++ ".bin") = some bT ∧
     fsExists (applyOps
        [(name ++ ".cue", cO), (name ++ ".bin", bO),
         (name ++ "_tmp.cue", cT), (name ++ "_tmp.bin", bT)]
        (finalizeOps name)) (name ++ "_tmp.cue") = false ∧
     fsExists (applyOps
        [(name ++ ".cue", cO), (name ++ ".bin", bO),
         (name ++ "_tmp.cue", cT), (name ++ "_tmp.bin", bT)]
        (finalizeOps name)) (name ++ "_tmp.bin") = false) ∧
    (fsExists (applyOps
        [(name ++ ".cue", cO), (name ++ ".bin", bO),
         (name ++ "_tmp.cue", cT), (name ++ "_tmp.bin", bT)]
        ((finalizeOps name).take 2)) (name ++ ".cue") = false ∧
     fsExists (applyOps
        [(name ++ ".cue", cO), (name ++ ".bin", bO),
         (name ++ "_tmp.cue", cT), (name ++ "_tmp.bin", bT)]
        ((finalizeOps name).take 2)) (name ++ ".bin") = false) := by
  have e1 : ((name ++ ".bin") == (name ++ ".cue")) = false := beq_eq_false_iff_ne.mpr h1
  have e2 : ((name ++ "_tmp.cue") == (name ++ ".cue")) = false := beq_eq_false_iff_ne.mpr h2
  have e3 : ((name ++ "_tmp.bin") == (name ++ ".cue")) = false := beq_eq_false_iff_ne.mpr h3
  have e4 : ((name ++ "_tmp.cue") == (name ++ ".bin")) = false := beq_eq_false_iff_ne.mpr h4
  have e5 : ((name ++ "_tmp.bin") == (name ++ ".bin")) = false := beq_eq_false_iff_ne.mpr h5
  have e6 : ((name ++ "_tmp.bin") == (name ++ "_tmp.cue")) = false := beq_eq_false_iff_ne.mpr h6
  have s1 : ((name ++ ".cue") == (name ++ ".bin")) = false :=
    beq_eq_false_iff_ne.mpr (Ne.symm h1)
  have s2 : ((name ++ ".cue") == (name ++ "_tmp.cue")) = false :=
    beq_eq_false_iff_ne.mpr (Ne.symm h2)
  have s3 : ((name ++ ".bin") == (name ++ "_tmp.cue")) = false :=
    beq_eq_false_iff_ne.mpr (Ne.symm h4)
  have s4 : ((name ++ ".cue") == (name ++ "_tmp.bin")) = false :=
    beq_eq_false_iff_ne.mpr (Ne.symm h3)
  have s5 : ((name ++ ".bin") == (name ++ "_tmp.bin")) = false :=
    beq_eq_false_iff_ne.mpr (Ne.symm h5)
  have q1 : (name ++ ".bin" = name ++ ".cue") = False := eq_false h1
  have q2 : (name ++ "_tmp.cue" = name ++ ".cue") = False := eq_false h2
  have q3 : (name ++ "_tmp.bin" = name ++ ".cue") = False := eq_false h3
  have q4 : (name ++ "_tmp.cue" = name ++ ".bin") = False := eq_false h4
  have q5 : (name ++ "_tmp.bin" = name ++ ".bin") = False := eq_false h5
  have q6 : (name ++ "_tmp.bin" = name ++ "_tmp.cue") = False := eq_false h6
  have r1 : (name ++ ".cue" = name ++ ".bin") = False := eq_false (Ne.symm h1)
  have r2 : (name ++ ".cue" = name ++ "_tmp.cue") = False := eq_false (Ne.symm h2)
  have r3 : (name ++ ".bin" = name ++ "_tmp.cue") = False := eq_false (Ne.symm h4)
  have r4 : (name ++ ".cue" = name ++ "_tmp.bin") = False := eq_false (Ne.symm h3)
  have r5 : (name ++ ".bin" = name ++ "_tmp.bin") = False := eq_false (Ne.symm h5)
  refine ⟨⟨?_, ?_, ?_, ?_⟩, ?_, ?_⟩ <;>
    simp [applyOps, applyOp, finalizeOps, fsRemove, fsRename, fsGet, fsExists,
      List.filter, List.find?, bne, e1, e2, e3, e4, e5, e6, s1, s2, s3, s4, s5,
      q1, q2, q3, q4, q5, q6, r1, r2, r3, r4, r5]

/-- Witness for C2 (amended) at the concrete log name `h`. -/
theorem C2_promotion_remove_then_rename_witness :
    (fsGet (applyOps
        [("h" ++ ".cue", "origCue"), ("h" ++ ".bin", "origBin"),
         ("h" ++ "_tmp.cue", "tmpCue"), ("h" ++ "_tmp.bin", "tmpBin")]
        (finalizeOps "h")) ("h" ++ ".cue") = some "tmpCue" ∧
     fsGet (applyOps
        [("h" ++ ".cue", "origCue"), ("h" ++ ".bin", "origBin"),
         ("h" ++ "_tmp.cue", "tmpCue"), ("h" ++ "_tmp.bin", "tmpBin")]
        (finalizeOps "h")) ("h" ++ ".bin") = some "tmpBin" ∧
     fsExists (applyOps
        [("h" ++ ".cue", "origCue"), ("h" ++ ".bin", "origBin"),
         ("h" ++ "_tmp.cue", "tmpCue"), ("h" ++ "_tmp.bin", "tmpBin")]
        (finalizeOps "h")) ("h" ++ "_tmp.cue") = false ∧
     fsExists (applyOps
        [("h" ++ ".cue", "origCue"), ("h" ++ ".bin", "origBin"),
         ("h" ++ "_tmp.cue", "tmpCue"), ("h" ++ "_tmp.bin", "tmpBin")]
        (finalizeOps "h")) ("h" ++ "_tmp.bin") = false) ∧
    (fsExists (applyOps
        [("h" ++ ".cue", "origCue"), ("h" ++ ".bin", "origBin"),
         ("h" ++ "_tmp.cue", "tmpCue"), ("h" ++ "_tmp.bin", "tmpBin")]
        ((finalizeOps "h").take 2)) ("h" ++ ".cue") = false ∧
     fsExists (applyOps
        [("h" ++ ".cue", "origCue"), ("h" ++ ".bin", "origBin"),
         ("h" ++ "_tmp.cue", "tmpCue"), ("h" ++ "_tmp.bin", "tmpBin")]
        ((finalizeOps "h").take 2)) ("h" ++ ".bin") = false) :=
  C2_promotion_remove_then_rename "h" "origCue" "origBin" "tmpCue" "tmpBin"
    (by decide) (by decide) (by decide) (by decide) (by decide) (by decide)

end PyALGENCAN
